import Mathlib

/-!
Shallow embedding of the kindly statistics export client
(packages `statistics`, `statistics/auth` and `cmd/frontendcsv/http`).

Modelling conventions:
* A Go `time.Time` is an `Int` counting seconds since 0001-01-01 00:00:00 UTC
  (Go's internal epoch), so the Go zero time is `0` and `IsZero` is `· = 0`.
  `24 * time.Hour` is `day = 86400` seconds.
* Date formatting/parsing with layout `2006-01-02` is implemented with the
  standard civil-calendar conversions (truncating integer division, as in the
  reference algorithms; all times handled by the program are in years ≥ 1,
  where the involved quantities are nonnegative).
* Network I/O is represented by the data the code inspects: the request
  pipeline `Client.do` consumes a list of transport outcomes, the token
  fetch consumes one decoded response, and the `/labels` handler consults an
  oracle mapping each (window start, source) sub-query to its outcome.
* JSON decoding of an untyped body is represented by its outcome
  (`Option`/`Except`), since the concrete byte-level decoder is external
  library code.
-/

namespace Kindly

/-- Go `time.Time`, as seconds since 0001-01-01 00:00:00 UTC. -/
abbrev Time := Int

/-- `24 * time.Hour`, in seconds. -/
def day : Int := 86400

/-- Leap-year predicate of the Gregorian calendar. -/
def isLeapYear (y : Int) : Bool :=
  y % 4 == 0 && (y % 100 != 0 || y % 400 == 0)

/-- Number of days in month `m` of year `y` (as validated by Go's
`time.Parse` for layout `2006-01-02`). -/
def daysIn (y m : Int) : Int :=
  if m = 2 then (if isLeapYear y then 29 else 28)
  else if m = 4 ∨ m = 6 ∨ m = 9 ∨ m = 11 then 30
  else 31

/-- Days since 1970-01-01 of the civil date `y-m-d` (Gregorian). -/
def daysFromCivil (y m d : Int) : Int :=
  let y2 := if m ≤ 2 then y - 1 else y
  let era : Int := (if 0 ≤ y2 then y2 else y2 - 399) / 400
  let yoe : Int := y2 - era * 400
  let doy : Int := (153 * (m + (if 2 < m then -3 else 9)) + 2) / 5 + d - 1
  let doe : Int := yoe * 365 + yoe / 4 - yoe / 100 + doy
  era * 146097 + doe - 719468

/-- Civil date `(y, m, d)` of a count of days since 1970-01-01. -/
def civilFromDays (z0 : Int) : Int × Int × Int :=
  let z := z0 + 719468
  let era : Int := (if 0 ≤ z then z else z - 146096) / 146097
  let doe : Int := z - era * 146097
  let yoe : Int := (doe - doe / 1460 + doe / 36524 - doe / 146096) / 365
  let y : Int := yoe + era * 400
  let doy : Int := doe - (365 * yoe + yoe / 4 - yoe / 100)
  let mp : Int := (5 * doy + 2) / 153
  let d : Int := doy - (153 * mp + 2) / 5 + 1
  let m : Int := mp + (if mp < 10 then 3 else -9)
  (y + (if m ≤ 2 then 1 else 0), m, d)

/-- Days between 0001-01-01 and 1970-01-01 (Go's `unixToInternal / 86400`). -/
def epochShift : Int := 719162

/-- Zero-pad to two digits. -/
def pad2 (n : Int) : String :=
  if n < 10 then "0" ++ toString n else toString n

/-- Zero-pad to four digits. -/
def pad4 (n : Int) : String :=
  if n < 10 then "000" ++ toString n
  else if n < 100 then "00" ++ toString n
  else if n < 1000 then "0" ++ toString n
  else toString n

/-- Go `t.Format("2006-01-02")` (the `dateLayout` constant of
`statistics/client.go`). -/
def formatDate (t : Time) : String :=
  match civilFromDays (t / 86400 - epochShift) with
  | (y, m, d) => pad4 y ++ "-" ++ pad2 m ++ "-" ++ pad2 d

/-- `statistics.Granularity` (`client.go`). -/
inductive Granularity where
  | Unspecified
  | Day
  | Hour
  | Week
deriving DecidableEq, Repr

/-- `Granularity.String` (`client.go`): the `default` branch of the Go
switch, which includes `Unspecified`, yields `"day"`. -/
def Granularity.str : Granularity → String
  | .Day => "day"
  | .Hour => "hour"
  | .Week => "week"
  | .Unspecified => "day"

/-- `formatTime` (`cmd/frontendcsv/http/server.go`): layout
`"2006-01-02 15:04"` when granularity is `Hour`, else `"2006-01-02"`. -/
def formatTime (t : Time) (g : Granularity) : String :=
  if g = Granularity.Hour then
    formatDate t ++ " " ++ pad2 ((t % 86400) / 3600) ++ ":" ++ pad2 ((t % 3600) / 60)
  else formatDate t

/-- `statistics.Filter` (`client.go`). -/
structure Filter where
  From : Time
  To : Time
  Timezone : String
  Limit : Int
  Granularity : Kindly.Granularity
  Sources : List String
  LanguageCodes : List String
deriving DecidableEq, Repr

/-- `Filter.Query` (`client.go`): the Go receiver is a possibly-nil
`*Filter`, hence the `Option`.  Each key is `Add`ed only when its source
field is non-zero; the pairs are listed in the order of the `Add` calls. -/
def query (f : Option Filter) : List (String × String) :=
  match f with
  | none => []
  | some f =>
      (if f.From ≠ 0 then [("from", formatDate f.From)] else [])
      ++ (if f.To ≠ 0 then [("to", formatDate f.To)] else [])
      ++ (if f.Granularity ≠ Granularity.Unspecified then
            [("granularity", f.Granularity.str)] else [])
      ++ (if f.Limit ≠ 0 then [("limit", toString f.Limit)] else [])

/-- Value of a decimal digit character, as used by `strconv.Atoi`. -/
def digitVal (c : Char) : Option Int :=
  if c.isDigit then some ((c.toNat : Int) - 48) else none

/-- Digits of a nonempty decimal string, most significant first. -/
def digitsVal : List Char → Option Int
  | [] => none
  | cs => cs.foldlM (fun acc c => (digitVal c).map (acc * 10 + ·)) 0

/-- Go `strconv.Atoi`: optional sign, at least one digit, 64-bit range. -/
def atoi (s : String) : Option Int :=
  let raw : Option Int :=
    match s.toList with
    | '+' :: ds => digitsVal ds
    | '-' :: ds => (digitsVal ds).map (fun n => -n)
    | ds => digitsVal ds
  match raw with
  | none => none
  | some n => if n < -(2 ^ 63) ∨ 2 ^ 63 - 1 < n then none else some n

/-- Go `time.Parse("2006-01-02", s)`: exactly `YYYY-MM-DD`, month and
day-of-month range-checked, yielding midnight UTC of that civil date. -/
def parseDate (s : String) : Option Time :=
  match s.toList with
  | [y1, y2, y3, y4, '-', m1, m2, '-', d1, d2] =>
      match digitVal y1, digitVal y2, digitVal y3, digitVal y4,
            digitVal m1, digitVal m2, digitVal d1, digitVal d2 with
      | some a, some b, some c, some e, some f, some g, some h, some i =>
          let y := a * 1000 + b * 100 + c * 10 + e
          let m := f * 10 + g
          let d := h * 10 + i
          if m < 1 ∨ 12 < m then none
          else if d < 1 ∨ daysIn y m < d then none
          else some ((daysFromCivil y m d + epochShift) * 86400)
      | _, _, _, _, _, _, _, _ => none
  | _ => none

/-! ### Request pipeline: `Client.do` (`statistics/client.go`) -/

/-- One HTTP response as inspected by `Client.do`:
* `status`: `resp.StatusCode`;
* `retryAfter`: `resp.Header.Get("Retry-After")` (`""` when absent);
* `ctxDone`: whether `r.Context().Done()` is ready before the
  `time.After` timer inside the 429 `select`;
* `envelope`: the outcome of `json.NewDecoder(resp.Body).Decode(&w)` for
  `responseWrapper{Data json.RawMessage}` — `some d` holds the raw `data`
  payload, `none` is a decode failure;
* `body`: the raw body as read by `newResponseError`. -/
structure Resp where
  status : Nat
  retryAfter : String
  ctxDone : Bool
  envelope : Option String
  body : String
deriving DecidableEq, Repr

/-- One call of `c.doer.Do(r)`: either a transport error or a response. -/
inductive Attempt where
  | transportErr
  | resp (r : Resp)
deriving DecidableEq, Repr

/-- Errors returned by `Client.do`: a transport error, a
`statistics.Error{statusCode, body}` from `newResponseError`, the
context's cancellation error, or a `json.Unmarshal` error on the typed
target. -/
inductive DoErr where
  | transport
  | upstream (statusCode : Nat) (body : String)
  | ctxCanceled
  | unmarshal (msg : String)
deriving DecidableEq, Repr

/-- `Client.do(r, v)` (`client.go`), consuming the scripted transport
outcomes attempt by attempt.  `vPresent` is `v != nil`; `unm` is
`json.Unmarshal(w.Data, &v)` for the concrete target type.  The result is
`none` when the script is exhausted with the loop still running, otherwise
`some` of the returned error (`Except.error`) or of the data written to
the target (`Except.ok`; `Option.none` when the target was not written). -/
def doRun {A : Type} (vPresent : Bool) (unm : String → Except String A) :
    List Attempt → Option (Except DoErr (Option A))
  | [] => none
  | .transportErr :: _ => some (.error .transport)
  | .resp r :: rest =>
    if r.status = 429 then
      if r.retryAfter ≠ "" then
        match atoi r.retryAfter with
        | none => some (.error (.upstream r.status r.body))
        | some _ =>
          if r.ctxDone then some (.error .ctxCanceled)
          else doRun vPresent unm rest
      else doRun vPresent unm rest
    else if r.status > 399 then some (.error (.upstream r.status r.body))
    else
      match r.envelope with
      | none => some (.ok none)
      | some d =>
        if vPresent then
          match unm d with
          | .ok a => some (.ok (some a))
          | .error e => some (.error (.unmarshal e))
        else some (.ok none)

/-! ### Credential fetch: `TokenSource.Token` (`statistics/auth/auth.go`) -/

/-- Go `strings.HasPrefix(s, pre)`, over the decoded character sequence. -/
def strStartsWith (s pre : String) : Bool := pre.data.isPrefixOf s.data

/-- `oauth2.Token` as built by `extractToken`. -/
structure Token where
  AccessToken : String
  TokenType : String
  RefreshToken : String
  Expiry : Time
deriving DecidableEq, Repr

/-- The token-endpoint response as inspected by `TokenSource.Token`:
`status` is the HTTP status, `contentType` the `Content-type` header, and
`bodyDecode` the outcome of decoding the body as
`{jwt: string, ttl: int}` (`tokenJSON.UnmarshalJSON`). -/
structure TokenResp where
  status : Nat
  contentType : String
  bodyDecode : Option (String × Int)
deriving DecidableEq, Repr

/-- Failures of `TokenSource.Token`: the `ErrRetrieveToken`-wrapped
unauthorized, unexpected content type and generic cases, and a JSON
decode failure from `extractToken`. -/
inductive AuthErr where
  | unauthorized
  | unexpectedContentType (ct : String)
  | decodeFailed
  | retrieveFailed
deriving DecidableEq, Repr

/-- `TokenSource.Token` (`auth.go`) combined with `extractToken` and
`tokenJSON.UnmarshalJSON`: `now` is the `time.Now()` of the decode, so
`Expiry = now + ttl` seconds. -/
def tokenFetch (now : Time) (r : TokenResp) : Except AuthErr Token :=
  if r.status = 401 then .error .unauthorized
  else if r.status = 200 then
    if strStartsWith r.contentType "application/json" then
      match r.bodyDecode with
      | none => .error .decodeFailed
      | some (jwt, ttl) =>
          .ok { AccessToken := jwt, TokenType := "Bearer",
                RefreshToken := "", Expiry := now + ttl }
    else .error (.unexpectedContentType r.contentType)
  else .error .retrieveFailed

/-! ### The `/labels` day-windowed aggregation
(`cmd/frontendcsv/http/server.go`) -/

/-- `statistics.ChatLabel`. -/
structure ChatLabel where
  Count : Int
  ID : String
  Text : String
deriving DecidableEq, Repr

/-- The row built for one label in the `/labels` handler:
`{formatTime(temp.From, f.Granularity), strconv.Itoa(label.Count),
label.ID, label.Text, source}`. -/
def labelRows (g : Granularity) (t : Time) (src : String)
    (labels : List ChatLabel) : List (List String) :=
  labels.map (fun l => [formatTime t g, toString l.Count, l.ID, l.Text, src])

/-- The starts `t` taken by the loop
`for t := f.From; t.Before(f.To); t = t.Add(24 * time.Hour)`. -/
def windowStarts (t hi : Int) : List Int :=
  if h : t < hi then t :: windowStarts (t + day) hi else []
termination_by (hi - t).toNat
decreasing_by simp only [day]; omega

/-- The windows `[temp.From, temp.To)` materialized per iteration:
`temp.From = t`, `temp.To = t.Add(24 * time.Hour)`. -/
def windows (lo hi : Int) : List (Int × Int) :=
  (windowStarts lo hi).map (fun s => (s, s + day))

/-- The (window start, source) sub-queries of the nested loop, outer loop
over windows, inner loop over `f.Sources` in declared order. -/
def plan (lo hi : Int) (ss : List String) : List (Int × String) :=
  (windowStarts lo hi).flatMap (fun t => ss.map (fun s => (t, s)))

/-- The inner `for _, source := range f.Sources` loop of the `/labels`
handler at window start `t`: each iteration calls
`client.ChatLabels(ctx, &temp)` (the oracle), returns its error
immediately on failure, and otherwise hands the built rows to
`w.WriteAll`.  Results: (sub-queries issued, rows written, error). -/
def innerGo (oracle : Time → String → Except DoErr (List ChatLabel))
    (g : Granularity) (t : Time) :
    List String → List (Time × String) × List (List String) × Option DoErr
  | [] => ([], [], none)
  | s :: rest =>
    match oracle t s with
    | .error e => ([(t, s)], [], some e)
    | .ok ls =>
        let r := innerGo oracle g t rest
        ((t, s) :: r.1, labelRows g t s ls ++ r.2.1, r.2.2)

/-- The outer `for t := f.From; t.Before(f.To); t = t.Add(24*time.Hour)`
loop of the `/labels` handler.  Results: (sub-queries issued, rows
written to the row writer, error returned). -/
def labelsGo (oracle : Time → String → Except DoErr (List ChatLabel))
    (g : Granularity) (sources : List String) (t hi : Int) :
    List (Time × String) × List (List String) × Option DoErr :=
  if h : t < hi then
    match innerGo oracle g t sources with
    | (tr, w, some e) => (tr, w, some e)
    | (tr, w, none) =>
        let r := labelsGo oracle g sources (t + day) hi
        (tr ++ r.1, w ++ r.2.1, r.2.2)
  else ([], [], none)
termination_by (hi - t).toNat
decreasing_by simp only [day]; omega

/-! ### `filterFromRequest` and the handler entry
(`cmd/frontendcsv/http/server.go`) -/

/-- The request form values read by `filterFromRequest`:
`r.Form.Get` yields `""` for an absent key, and `r.Form["sources"]` is
the (possibly empty) list of `sources` values. -/
structure Form where
  fromParam : String
  toParam : String
  limitParam : String
  granularityParam : String
  sources : List String
deriving DecidableEq, Repr

/-- The defaulted filter literal at the top of `filterFromRequest`:
`To: time.Now()`, `From: time.Now().Add(-24h)`, `Limit: 10`,
`Granularity: Day`. -/
def defaultFilter (now : Time) : Filter :=
  { From := now - day, To := now, Timezone := "", Limit := 10,
    Granularity := .Day, Sources := [], LanguageCodes := [] }

/-- The `from` parse step of `filterFromRequest`. -/
def parseFromStep (f : Filter) (s : String) : Except String Filter :=
  if s = "" then .ok f
  else
    match parseDate s with
    | some t => .ok { f with From := t }
    | none => .error "parsing query: \"from\""

/-- The `to` parse step of `filterFromRequest`. -/
def parseToStep (f : Filter) (s : String) : Except String Filter :=
  if s = "" then .ok f
  else
    match parseDate s with
    | some t => .ok { f with To := t }
    | none => .error "parsing query: \"to\""

/-- The `limit` parse step of `filterFromRequest`. -/
def parseLimitStep (f : Filter) (s : String) : Except String Filter :=
  if s = "" then .ok f
  else
    match atoi s with
    | some n => .ok { f with Limit := n }
    | none => .error "parsing query: \"limit\""

/-- `filterFromRequest` (`server.go`): parse `from`, `to`, `limit`;
reject `f.To.Equal(f.From)`; only `granularity=hour` changes the
granularity; empty `sources` defaults to `["web", "facebook"]`. -/
def filterFromRequest (now : Time) (form : Form) : Except String Filter :=
  match parseFromStep (defaultFilter now) form.fromParam with
  | .error e => .error e
  | .ok f1 =>
    match parseToStep f1 form.toParam with
    | .error e => .error e
    | .ok f2 =>
      match parseLimitStep f2 form.limitParam with
      | .error e => .error e
      | .ok f3 =>
        if f3.To = f3.From then
          .error "parsing query: \"from\" and \"to\" are equal"
        else
          let f4 := if form.granularityParam = "hour" then
              { f3 with Granularity := .Hour } else f3
          let srcs := if form.sources.isEmpty then ["web", "facebook"]
              else form.sources
          .ok { f4 with Sources := srcs }

/-- `csvHandler.ServeHTTP` for the `/labels` route: a failing
`filterFromRequest` answers 400 via `respondErr` and the handler body is
never run (no sub-query is issued); otherwise the windowed loop runs. -/
def serveLabels (now : Time) (form : Form)
    (oracle : Time → String → Except DoErr (List ChatLabel)) :
    Except String (List (Time × String) × List (List String) × Option DoErr) :=
  match filterFromRequest now form with
  | .error e => .error e
  | .ok f => .ok (labelsGo oracle f.Granularity f.Sources f.From f.To)

/-! ### Proof-side helper definitions -/

/-- Number of loop iterations: `⌈(hi - lo) / day⌉`, as a `Nat`. -/
def numWindows (t hi : Time) : Nat := ((hi - t).toNat + 86399) / 86400

/-- Reference runner over an explicit list of (window, source) pairs,
used to flatten the nested `/labels` loop for proofs. -/
def runPairs (oracle : Time → String → Except DoErr (List ChatLabel))
    (g : Granularity) :
    List (Time × String) → List (Time × String) × List (List String) × Option DoErr
  | [] => ([], [], none)
  | p :: rest =>
    match oracle p.1 p.2 with
    | .error e => ([p], [], some e)
    | .ok ls =>
        let r := runPairs oracle g rest
        (p :: r.1, labelRows g p.1 p.2 ls ++ r.2.1, r.2.2)

/-- A sub-query oracle where `web` succeeds with one label and any other
source fails with an upstream 500. -/
def oracleCE : Time → String → Except DoErr (List ChatLabel) :=
  fun _ s =>
    if s = "web" then .ok [{ Count := 1, ID := "id1", Text := "lbl" }]
    else .error (.upstream 500 "boom")

/-! ### Lemmas about the window loop -/

theorem windowStarts_neg {t hi : Int} (h : ¬ t < hi) : windowStarts t hi = [] := by
  rw [windowStarts]
  simp [h]

theorem windowStarts_pos {t hi : Int} (h : t < hi) :
    windowStarts t hi = t :: windowStarts (t + day) hi := by
  rw [windowStarts]
  simp [h]

theorem windowStarts_eq_range :
    ∀ (n : Nat) (t hi : Int), numWindows t hi = n →
      windowStarts t hi = (List.range n).map (fun k : Nat => t + day * (k : Int)) := by
  intro n
  induction n with
  | zero =>
    intro t hi hn
    have hlt : ¬ t < hi := by
      simp only [numWindows] at hn
      omega
    rw [windowStarts_neg hlt]
    simp
  | succ n ih =>
    intro t hi hn
    have hlt : t < hi := by
      simp only [numWindows] at hn
      omega
    have hn' : numWindows (t + day) hi = n := by
      simp only [numWindows, day] at hn ⊢
      omega
    rw [windowStarts_pos hlt, ih (t + day) hi hn', List.range_succ_eq_map]
    simp only [List.map_cons, List.map_map, Nat.cast_zero, mul_zero, add_zero,
      List.cons.injEq, true_and]
    refine List.map_congr_left (fun k _ => ?_)
    simp only [Function.comp_apply, Nat.cast_succ]
    ring

/-! ### Lemmas flattening the nested `/labels` loop -/

theorem runPairs_all_ok (results : Time → String → List ChatLabel)
    (g : Granularity) :
    ∀ l : List (Time × String),
      runPairs (fun t s => Except.ok (results t s)) g l =
        (l, l.flatMap (fun p => labelRows g p.1 p.2 (results p.1 p.2)), none) := by
  intro l
  induction l with
  | nil => rfl
  | cons p rest ih => simp [runPairs, ih]

theorem runPairs_append_err
    (oracle : Time → String → Except DoErr (List ChatLabel)) (g : Granularity) :
    ∀ (l1 l2 : List (Time × String)) (e : DoErr),
      (runPairs oracle g l1).2.2 = some e →
      runPairs oracle g (l1 ++ l2) = runPairs oracle g l1 := by
  intro l1
  induction l1 with
  | nil => intro l2 e h; simp [runPairs] at h
  | cons p rest ih =>
    intro l2 e h
    cases horacle : oracle p.1 p.2 with
    | error e' => simp [runPairs, horacle]
    | ok ls =>
      simp only [runPairs, horacle, List.cons_append, List.append_eq] at h ⊢
      rw [ih l2 e h]

theorem runPairs_append_ok
    (oracle : Time → String → Except DoErr (List ChatLabel)) (g : Granularity) :
    ∀ (l1 l2 : List (Time × String)),
      (runPairs oracle g l1).2.2 = none →
      runPairs oracle g (l1 ++ l2) =
        ((runPairs oracle g l1).1 ++ (runPairs oracle g l2).1,
         (runPairs oracle g l1).2.1 ++ (runPairs oracle g l2).2.1,
         (runPairs oracle g l2).2.2) := by
  intro l1
  induction l1 with
  | nil => intro l2 h; simp [runPairs]
  | cons p rest ih =>
    intro l2 h
    cases horacle : oracle p.1 p.2 with
    | error e' => simp [runPairs, horacle] at h
    | ok ls =>
      simp only [runPairs, horacle, List.cons_append, List.append_eq] at h ⊢
      rw [ih l2 h]
      simp

theorem innerGo_eq_runPairs
    (oracle : Time → String → Except DoErr (List ChatLabel)) (g : Granularity)
    (t : Time) :
    ∀ ss : List String,
      innerGo oracle g t ss = runPairs oracle g (ss.map (fun s => (t, s))) := by
  intro ss
  induction ss with
  | nil => rfl
  | cons s rest ih =>
    simp only [innerGo, List.map_cons, runPairs]
    cases oracle t s <;> simp [ih]

theorem labelsGo_neg
    (oracle : Time → String → Except DoErr (List ChatLabel)) (g : Granularity)
    (ss : List String) {t hi : Int} (h : ¬ t < hi) :
    labelsGo oracle g ss t hi = ([], [], none) := by
  rw [labelsGo]
  simp [h]

theorem labelsGo_pos
    (oracle : Time → String → Except DoErr (List ChatLabel)) (g : Granularity)
    (ss : List String) {t hi : Int} (h : t < hi) :
    labelsGo oracle g ss t hi =
      match innerGo oracle g t ss with
      | (tr, w, some e) => (tr, w, some e)
      | (tr, w, none) =>
          let r := labelsGo oracle g ss (t + day) hi
          (tr ++ r.1, w ++ r.2.1, r.2.2) := by
  rw [labelsGo]
  simp [h]

theorem labelsGo_eq_runPairs
    (oracle : Time → String → Except DoErr (List ChatLabel)) (g : Granularity)
    (ss : List String) :
    ∀ (n : Nat) (t hi : Int), numWindows t hi = n →
      labelsGo oracle g ss t hi = runPairs oracle g (plan t hi ss) := by
  intro n
  induction n with
  | zero =>
    intro t hi hn
    have hlt : ¬ t < hi := by
      simp only [numWindows] at hn
      omega
    rw [labelsGo_neg _ _ _ hlt]
    simp [plan, windowStarts_neg hlt, runPairs]
  | succ n ih =>
    intro t hi hn
    have hlt : t < hi := by
      simp only [numWindows] at hn
      omega
    have hn' : numWindows (t + day) hi = n := by
      simp only [numWindows, day] at hn ⊢
      omega
    rw [labelsGo_pos _ _ _ hlt]
    simp only [plan, windowStarts_pos hlt, List.flatMap_cons]
    rw [innerGo_eq_runPairs]
    rcases hrp : runPairs oracle g (ss.map (fun s => (t, s))) with ⟨tr, w, err⟩
    cases err with
    | some e =>
      rw [runPairs_append_err oracle g _ _ e (by rw [hrp])]
      rw [hrp]
    | none =>
      rw [runPairs_append_ok oracle g _ _ (by rw [hrp])]
      rw [hrp]
      have hplan := ih (t + day) hi hn'
      simp only [plan] at hplan
      rw [← hplan]

theorem runPairs_error_char
    (oracle : Time → String → Except DoErr (List ChatLabel)) (g : Granularity) :
    ∀ (l : List (Time × String)) (e : DoErr),
      (runPairs oracle g l).2.2 = some e →
      ∃ pre t s suf,
        l = pre ++ (t, s) :: suf ∧
        (runPairs oracle g l).1 = pre ++ [(t, s)] ∧
        oracle t s = .error e ∧
        (∀ p ∈ pre, ∃ ls, oracle p.1 p.2 = .ok ls) ∧
        (runPairs oracle g l).2.1 = pre.flatMap (fun p =>
          match oracle p.1 p.2 with
          | .ok ls => labelRows g p.1 p.2 ls
          | .error _ => []) := by
  intro l
  induction l with
  | nil => intro e h; simp [runPairs] at h
  | cons p rest ih =>
    intro e h
    cases horacle : oracle p.1 p.2 with
    | error e' =>
      have he : e' = e := by
        simp only [runPairs, horacle] at h
        exact (Option.some.injEq _ _ ▸ h : e' = e)
      subst he
      exact ⟨[], p.1, p.2, rest, by simp, by simp [runPairs, horacle],
        horacle, by simp, by simp [runPairs, horacle]⟩
    | ok ls =>
      have h' : (runPairs oracle g rest).2.2 = some e := by
        simpa only [runPairs, horacle] using h
      obtain ⟨pre, t, s, suf, hl, htr, ho, hok, hw⟩ := ih e h'
      refine ⟨p :: pre, t, s, suf, by simp [hl], ?_, ho, ?_, ?_⟩
      · simp [runPairs, horacle, htr]
      · intro q hq
        rcases List.mem_cons.mp hq with hq | hq
        · exact ⟨ls, hq ▸ horacle⟩
        · exact hok q hq
      · simp [runPairs, horacle, hw]

theorem labelsGo_CE :
    labelsGo oracleCE Granularity.Day ["web", "facebook"] 0 86400 =
      ([(0, "web"), (0, "facebook")],
       [[formatTime 0 Granularity.Day, toString (1 : Int), "id1", "lbl", "web"]],
       some (DoErr.upstream 500 "boom")) := by
  rw [labelsGo_eq_runPairs oracleCE Granularity.Day ["web", "facebook"] 1 0 86400
    (by decide)]
  simp only [plan]
  rw [windowStarts_pos (by norm_num [day] : (0 : Int) < 86400)]
  rw [windowStarts_neg (by norm_num [day] : ¬ ((0 : Int) + day < 86400))]
  decide

/-! ### Claim theorems -/

/-- C7: `Query` never contains a key whose source field is its zero value
(zero `From`/`To` omit `from`/`to`, `Unspecified` granularity omits
`granularity`, `Limit = 0` omits `limit`), and `Query` of a nil `Filter`
is the empty parameter set. -/
theorem query_omits_zero_values (f : Filter) :
    query none = [] ∧
    (f.From = 0 → "from" ∉ (query (some f)).map Prod.fst) ∧
    (f.To = 0 → "to" ∉ (query (some f)).map Prod.fst) ∧
    (f.Granularity = Granularity.Unspecified →
      "granularity" ∉ (query (some f)).map Prod.fst) ∧
    (f.Limit = 0 → "limit" ∉ (query (some f)).map Prod.fst) := by
  refine ⟨rfl, ?_, ?_, ?_, ?_⟩ <;> intro h <;>
    simp only [query, h, ne_eq, not_true_eq_false, if_false,
      List.map_append, List.mem_append] <;>
    split_ifs <;> simp_all

/-- Witness for C7 at an all-zero filter. -/
theorem query_omits_zero_values_witness :
    "from" ∉ (query (some { From := 0, To := 0, Timezone := "", Limit := 0,
                            Granularity := Granularity.Unspecified,
                            Sources := [], LanguageCodes := [] })).map Prod.fst :=
  (query_omits_zero_values _).2.1 rfl

/-- C10: `Query` only ever emits keys among `from`, `to`, `granularity`,
`limit`; the `Sources`, `LanguageCodes` and `Timezone` fields are never
projected, so no sub-query request carries a source parameter. -/
theorem query_keys_known (f : Option Filter) (k : String) :
    (k ∈ (query f).map Prod.fst → k ∈ ["from", "to", "granularity", "limit"]) ∧
    "sources" ∉ (query f).map Prod.fst ∧
    "source" ∉ (query f).map Prod.fst ∧
    "timezone" ∉ (query f).map Prod.fst ∧
    "languageCodes" ∉ (query f).map Prod.fst := by
  cases f with
  | none => simp [query]
  | some f =>
    refine ⟨?_, ?_, ?_, ?_, ?_⟩ <;>
      simp only [query, List.map_append, List.mem_append] <;>
      split_ifs <;> simp_all <;> tauto

/-- Witness for C10: the `from` key of a projected filter is a known key. -/
theorem query_keys_known_witness :
    "from" ∈ ["from", "to", "granularity", "limit"] :=
  (query_keys_known (some { From := 1, To := 0, Timezone := "", Limit := 0,
                            Granularity := Granularity.Unspecified,
                            Sources := ["web"], LanguageCodes := [] })
    "from").1 (by decide)

/-- C9: a token fetch succeeds only on HTTP 200 with a `Content-Type`
beginning with `application/json` and a decodable `{jwt, ttl}` body, and
the credential's expiry is the fetch time plus `ttl` seconds; a 200
response with another content type fails with the malformed-content-type
error (and yields no token). -/
theorem token_fetch_postconditions (now : Time) (r : TokenResp) :
    (∀ tok, tokenFetch now r = .ok tok →
      r.status = 200 ∧
      strStartsWith r.contentType "application/json" = true ∧
      ∃ jwt ttl, r.bodyDecode = some (jwt, ttl) ∧
        tok = { AccessToken := jwt, TokenType := "Bearer", RefreshToken := "",
                Expiry := now + ttl }) ∧
    (r.status = 200 → strStartsWith r.contentType "application/json" = false →
      tokenFetch now r = .error (.unexpectedContentType r.contentType)) := by
  constructor
  · intro tok hok
    by_cases h401 : r.status = 401
    · simp [tokenFetch, h401] at hok
    · by_cases h200 : r.status = 200
      · by_cases hct : strStartsWith r.contentType "application/json" = true
        · cases hb : r.bodyDecode with
          | none => simp [tokenFetch, h401, h200, hct, hb] at hok
          | some p =>
            obtain ⟨jwt, ttl⟩ := p
            simp only [tokenFetch, h401, h200, hct, hb, if_neg, if_pos,
              if_true, if_false, ite_true, ite_false, reduceIte] at hok
            refine ⟨h200, hct, jwt, ttl, rfl, ?_⟩
            exact (Except.ok.inj hok).symm
        · simp [tokenFetch, h401, h200, hct] at hok
      · simp [tokenFetch, h401, h200] at hok
  · intro h200 hct
    have h401 : ¬ r.status = 401 := by omega
    simp [tokenFetch, h401, h200, hct]

/-- Witness for C9: a good JSON fetch at time 1000 with ttl 300 expires at
1300, and a `text/plain` 200 response is rejected. -/
theorem token_fetch_postconditions_witness :
    ((⟨200, "application/json; charset=utf-8", some ("jwt1", 300)⟩ : TokenResp).status = 200 ∧
      strStartsWith
        (⟨200, "application/json; charset=utf-8", some ("jwt1", 300)⟩ : TokenResp).contentType
        "application/json" = true ∧
      ∃ jwt ttl,
        (⟨200, "application/json; charset=utf-8", some ("jwt1", 300)⟩ : TokenResp).bodyDecode
          = some (jwt, ttl) ∧
        ({ AccessToken := "jwt1", TokenType := "Bearer", RefreshToken := "",
           Expiry := 1300 } : Token)
          = { AccessToken := jwt, TokenType := "Bearer", RefreshToken := "",
              Expiry := 1000 + ttl }) ∧
    tokenFetch 1000 ⟨200, "text/plain", some ("j", 10)⟩ =
      .error (.unexpectedContentType "text/plain") :=
  ⟨(token_fetch_postconditions 1000 _).1
      { AccessToken := "jwt1", TokenType := "Bearer", RefreshToken := "",
        Expiry := 1300 } (by rfl),
   (token_fetch_postconditions 1000 _).2 rfl (by rfl)⟩

/-- C5: on a 200 response, an envelope-decode failure yields a nil error
with the target untouched; when the envelope decodes and the target is
present, the data is unmarshalled into the target and any unmarshal error
is propagated. -/
theorem do_envelope_leniency {A : Type} (unm : String → Except String A)
    (r : Resp) (rest : List Attempt) (h200 : r.status = 200) :
    (r.envelope = none → ∀ vP, doRun vP unm (.resp r :: rest) = some (.ok none)) ∧
    (∀ d, r.envelope = some d →
      doRun true unm (.resp r :: rest) =
        match unm d with
        | .ok a => some (.ok (some a))
        | .error e => some (.error (.unmarshal e))) := by
  constructor
  · intro he vP
    simp [doRun, h200, he]
  · intro d hd
    simp only [doRun, h200, hd]
    norm_num

/-- Witness for C5: a 200 response whose body fails envelope decoding is
reported as success with no data. -/
theorem do_envelope_leniency_witness :
    doRun true (fun s => Except.ok s)
      [Attempt.resp ⟨200, "", false, none, ""⟩] = some (.ok none) :=
  (do_envelope_leniency (fun s => Except.ok s) ⟨200, "", false, none, ""⟩ []
    rfl).1 rfl true

/-- C4: on a 429 response, an absent `Retry-After` retries immediately; a
present but unparsable one is a terminal upstream error; a parsable one
waits, returning the cancellation error if the context is done first, and
otherwise retries with the same request and decoder unchanged (the
credential is not re-fetched: the loop re-enters with identical state). -/
theorem do_retry_after_handling {A : Type} (vP : Bool)
    (unm : String → Except String A) (r : Resp) (rest : List Attempt)
    (h429 : r.status = 429) :
    (r.retryAfter = "" → doRun vP unm (.resp r :: rest) = doRun vP unm rest) ∧
    (r.retryAfter ≠ "" → atoi r.retryAfter = none →
      doRun vP unm (.resp r :: rest) = some (.error (.upstream 429 r.body))) ∧
    (r.retryAfter ≠ "" → (atoi r.retryAfter).isSome = true → r.ctxDone = true →
      doRun vP unm (.resp r :: rest) = some (.error .ctxCanceled)) ∧
    (r.retryAfter ≠ "" → (atoi r.retryAfter).isSome = true → r.ctxDone = false →
      doRun vP unm (.resp r :: rest) = doRun vP unm rest) := by
  refine ⟨?_, ?_, ?_, ?_⟩
  · intro h
    simp [doRun, h429, h]
  · intro h ha
    simp [doRun, h429, h, ha]
  · intro h ha hc
    obtain ⟨w, hw⟩ := Option.isSome_iff_exists.mp ha
    simp [doRun, h429, h, hw, hc]
  · intro h ha hc
    obtain ⟨w, hw⟩ := Option.isSome_iff_exists.mp ha
    simp [doRun, h429, h, hw, hc]

/-- Witness for C4: a 429 with `Retry-After: 2` and a live context retries
against the remaining script. -/
theorem do_retry_after_handling_witness :
    doRun true (fun s => Except.ok s)
      [Attempt.resp ⟨429, "2", false, none, ""⟩,
       Attempt.resp ⟨200, "", false, none, ""⟩] =
    doRun true (fun s => Except.ok s)
      [Attempt.resp ⟨200, "", false, none, ""⟩] :=
  (do_retry_after_handling true (fun s => Except.ok s) ⟨429, "2", false, none, ""⟩
    [Attempt.resp ⟨200, "", false, none, ""⟩] rfl).2.2.2
    (by decide) (by decide) rfl

/-- C3 counterexample: a 429 response whose `Retry-After` header is
present but not an integer makes the loop terminate with an upstream
error instead of retrying — so "retries if and only if status is 429"
fails, and the loop can terminate on a 429 without any cancellation. -/
theorem do_retry_iff_429_counterexample :
    doRun true (fun s => Except.ok s)
        [Attempt.resp ⟨429, "soon", false, none, "b"⟩] =
      some (.error (.upstream 429 "b")) ∧
    doRun true (fun s => Except.ok s) ([] : List Attempt) = none ∧
    doRun true (fun s => Except.ok s)
        [Attempt.resp ⟨429, "soon", false, none, "b"⟩] ≠
      doRun true (fun s => Except.ok s) ([] : List Attempt) := by
  refine ⟨rfl, rfl, ?_⟩
  intro h
  simp [doRun, atoi, digitsVal, digitVal] at h

/-- C3 (amended): the loop retries only on a 429 status; a non-429
status terminates it at the current attempt with a result independent of
the remaining script; a 429 retries when `Retry-After` is absent, or
present, parsable and the context survives the wait; a 429 with a
present unparsable `Retry-After` terminates with an upstream error, and a
parsable one with a canceled context terminates with the cancellation
error. -/
theorem do_retry_termination {A : Type} (vP : Bool)
    (unm : String → Except String A) (r : Resp) (rest rest' : List Attempt) :
    (r.status ≠ 429 →
      (doRun vP unm (.resp r :: rest)).isSome = true ∧
      doRun vP unm (.resp r :: rest) = doRun vP unm (.resp r :: rest')) ∧
    (r.status = 429 → r.retryAfter = "" →
      doRun vP unm (.resp r :: rest) = doRun vP unm rest) ∧
    (r.status = 429 → r.retryAfter ≠ "" → (atoi r.retryAfter).isSome = true →
      r.ctxDone = false →
      doRun vP unm (.resp r :: rest) = doRun vP unm rest) ∧
    (r.status = 429 → r.retryAfter ≠ "" → atoi r.retryAfter = none →
      doRun vP unm (.resp r :: rest) = some (.error (.upstream r.status r.body))) ∧
    (r.status = 429 → r.retryAfter ≠ "" → (atoi r.retryAfter).isSome = true →
      r.ctxDone = true →
      doRun vP unm (.resp r :: rest) = some (.error .ctxCanceled)) := by
  refine ⟨?_, ?_, ?_, ?_, ?_⟩
  · intro h
    constructor
    · simp only [doRun, if_neg h]
      split
      · simp
      · cases he : r.envelope with
        | none => simp
        | some d =>
          cases vP
          · simp
          · cases hu : unm d <;> simp [hu]
    · simp only [doRun, if_neg h]
  · intro h429 h
    simp [doRun, h429, h]
  · intro h429 h ha hc
    obtain ⟨w, hw⟩ := Option.isSome_iff_exists.mp ha
    simp [doRun, h429, h, hw, hc]
  · intro h429 h ha
    simp [doRun, h429, h, ha]
  · intro h429 h ha hc
    obtain ⟨w, hw⟩ := Option.isSome_iff_exists.mp ha
    simp [doRun, h429, h, hw, hc]

/-- Witness for C3 (amended): a 500 response terminates the loop at once. -/
theorem do_retry_termination_witness :
    (doRun true (fun s => Except.ok s)
      [Attempt.resp ⟨500, "", false, none, "x"⟩]).isSome = true :=
  ((do_retry_termination true (fun s => Except.ok s)
    ⟨500, "", false, none, "x"⟩ [] []).1 (by decide)).1

/-- C8: `filterFromRequest` rejects `from == to` with a validation error,
and on any validation error the `/labels` handler body never runs, so no
sub-query (network call) is issued. -/
theorem equal_bounds_rejected (now : Int) (form : Form) :
    (∀ f, filterFromRequest now form = .ok f → f.From ≠ f.To) ∧
    (∀ e (oracle : Time → String → Except DoErr (List ChatLabel)),
      filterFromRequest now form = .error e →
      serveLabels now form oracle = .error e) := by
  constructor
  · intro f hok hFT
    simp only [filterFromRequest] at hok
    split at hok
    · cases hok
    · split at hok
      · cases hok
      · split at hok
        · cases hok
        · split at hok
          · cases hok
          · rename_i f3 heq
            have hf : f = _ := (Except.ok.inj hok).symm
            subst hf
            by_cases hg : form.granularityParam = "hour" <;>
              simp [hg] at hFT <;>
              exact heq hFT.symm
  · intro e oracle herr
    simp [serveLabels, herr]

/-- Witness for C8: a request with `from = to = 2021-02-01` is answered
with the validation error; the handler runs no sub-query. -/
theorem equal_bounds_rejected_witness :
    serveLabels 0 ⟨"2021-02-01", "2021-02-01", "", "", []⟩
        (fun _ _ => Except.ok []) =
      .error "parsing query: \"from\" and \"to\" are equal" :=
  (equal_bounds_rejected 0 ⟨"2021-02-01", "2021-02-01", "", "", []⟩).2 _
    (fun _ _ => Except.ok []) (by rfl)

/-- C1 counterexample: with `from = 0 < to = 1`, the loop produces the
single window `[0, 86400)` — its end is `86400`, not `1`: the final
window is not truncated at `to`, so the windows do not exactly tile
`[from, to)`. -/
theorem window_tiling_counterexample :
    (0 : Int) < 1 ∧
    windows 0 1 = [(0, 86400)] ∧
    (windows 0 1).getLast?.map Prod.snd ≠ some 1 := by
  have hwin : windows 0 1 = [(0, 86400)] := by
    rw [windows, windowStarts_pos (by norm_num : (0 : Int) < 1),
        windowStarts_neg (by norm_num [day] : ¬ ((0 : Int) + day < 1))]
    simp [day]
  exact ⟨by norm_num, hwin, by rw [hwin]; decide⟩

/-- C1 (amended): for `from < to` the windows are nonempty, start at
`from`, are consecutive (each start is the previous end) and exactly one
day long, every instant of `[from, to)` lies in exactly one window, and
the final window's end is the first day boundary at or after `to` — it
exceeds `to` unless `to - from` is a multiple of 24 h, in which case it
equals `to`. -/
theorem window_tiling (lo hi : Int) (h : lo < hi) :
    windows lo hi ≠ [] ∧
    (windows lo hi).head? = some (lo, lo + day) ∧
    List.Chain' (fun a b : Int × Int => b.1 = a.2) (windows lo hi) ∧
    (∀ w ∈ windows lo hi, w.2 = w.1 + day) ∧
    (∀ x : Int, lo ≤ x → x < hi → ∃! w, w ∈ windows lo hi ∧ w.1 ≤ x ∧ x < w.2) ∧
    (∃ wl, (windows lo hi).getLast? = some wl ∧ hi ≤ wl.2 ∧ wl.2 < hi + day ∧
      (wl.2 = hi ↔ day ∣ hi - lo)) := by
  have hw : windows lo hi =
      (List.range (numWindows lo hi)).map
        (fun k : Nat => (lo + day * (k : Int), lo + day * (k : Int) + day)) := by
    rw [windows, windowStarts_eq_range (numWindows lo hi) lo hi rfl,
      List.map_map]
    rfl
  obtain ⟨m, hm⟩ : ∃ m, numWindows lo hi = m + 1 := by
    refine ⟨numWindows lo hi - 1, ?_⟩
    have : 1 ≤ numWindows lo hi := by
      simp only [numWindows]
      omega
    omega
  have hb : 86400 * (m : Int) < hi - lo ∧ hi - lo ≤ 86400 * ((m : Int) + 1) := by
    simp only [numWindows] at hm
    omega
  refine ⟨?_, ?_, ?_, ?_, ?_, ?_⟩
  · rw [hw, hm]
    simp
  · rw [hw, hm, List.range_succ_eq_map]
    simp
  · rw [hw, List.chain'_map, hm]
    rw [List.chain'_range_succ]
    intro i _
    push_cast
    ring
  · rw [hw]
    simp only [List.mem_map, List.mem_range]
    rintro w ⟨k, _, rfl⟩
    rfl
  · intro x hx1 hx2
    have hkb : (0 : Int) ≤ x - lo := by omega
    refine ⟨(lo + day * ((x - lo).toNat / 86400 : Nat),
             lo + day * ((x - lo).toNat / 86400 : Nat) + day), ⟨?_, ?_, ?_⟩, ?_⟩
    · rw [hw]
      simp only [List.mem_map, List.mem_range]
      refine ⟨(x - lo).toNat / 86400, ?_, rfl⟩
      simp only [numWindows]
      omega
    · simp only [day]
      omega
    · simp only [day]
      omega
    · rintro ⟨a, b⟩ ⟨hmem, ha, hbnd⟩
      rw [hw] at hmem
      simp only [List.mem_map, List.mem_range] at hmem
      obtain ⟨q, _, heq⟩ := hmem
      have ha' : lo + day * (q : Int) = a := congrArg Prod.fst heq
      have hb' : lo + day * (q : Int) + day = b := congrArg Prod.snd heq
      have hq : q = (x - lo).toNat / 86400 := by
        simp only [day] at ha' hb' ⊢
        omega
      rw [← ha', ← hb', hq]
  · refine ⟨(lo + day * (m : Int), lo + day * (m : Int) + day), ?_, ?_, ?_, ?_⟩
    · rw [hw, hm, List.range_succ, List.map_append]
      simp
    · simp only [day]
      omega
    · simp only [day]
      omega
    · simp only [day]
      omega

/-- Witness for C1 at `from = 0`, `to = 86400`: one window starting at 0. -/
theorem window_tiling_witness :
    (windows 0 86400).head? = some (0, 86400) := by
  have h := (window_tiling 0 86400 (by norm_num)).2.1
  simpa [day] using h

/-- C2 counterexample: with one window and sources `[web, facebook]`,
where `web` succeeds with one label and `facebook` fails, the aggregation
returns the raw upstream error — which names no window or source — while
the rows of the earlier `(window, web)` sub-query have already been
written to the row writer: a partial result has reached the consumer. -/
theorem labels_abort_counterexample :
    (labelsGo oracleCE Granularity.Day ["web", "facebook"] 0 86400).2.2 =
      some (DoErr.upstream 500 "boom") ∧
    (labelsGo oracleCE Granularity.Day ["web", "facebook"] 0 86400).2.1 ≠ [] := by
  rw [labelsGo_CE]
  exact ⟨rfl, by simp⟩

/-- C2 (amended): the first sub-query failure aborts the aggregation — the
issued sub-queries are exactly the successful prefix of the plan plus the
failing one, nothing after it is issued — and the failing sub-query's
error is returned unchanged (it does not identify the window or source);
the rows already written are exactly those of the successful prefix, so
rows from earlier windows/sources have already reached the row writer. -/
theorem labels_abort_on_first_error
    (oracle : Time → String → Except DoErr (List ChatLabel)) (g : Granularity)
    (ss : List String) (lo hi : Int) (e : DoErr)
    (h : (labelsGo oracle g ss lo hi).2.2 = some e) :
    ∃ pre t s suf,
      plan lo hi ss = pre ++ (t, s) :: suf ∧
      (labelsGo oracle g ss lo hi).1 = pre ++ [(t, s)] ∧
      oracle t s = .error e ∧
      (∀ p ∈ pre, ∃ ls, oracle p.1 p.2 = .ok ls) ∧
      (labelsGo oracle g ss lo hi).2.1 = pre.flatMap (fun p =>
        match oracle p.1 p.2 with
        | .ok ls => labelRows g p.1 p.2 ls
        | .error _ => []) := by
  rw [labelsGo_eq_runPairs oracle g ss (numWindows lo hi) lo hi rfl] at h ⊢
  exact runPairs_error_char oracle g (plan lo hi ss) e h

/-- Witness for C2 at the concrete failing scenario of the
counterexample. -/
theorem labels_abort_on_first_error_witness :
    ∃ pre t s suf,
      plan 0 86400 ["web", "facebook"] = pre ++ (t, s) :: suf ∧
      (labelsGo oracleCE Granularity.Day ["web", "facebook"] 0 86400).1 =
        pre ++ [(t, s)] ∧
      oracleCE t s = .error (DoErr.upstream 500 "boom") ∧
      (∀ p ∈ pre, ∃ ls, oracleCE p.1 p.2 = .ok ls) ∧
      (labelsGo oracleCE Granularity.Day ["web", "facebook"] 0 86400).2.1 =
        pre.flatMap (fun p =>
          match oracleCE p.1 p.2 with
          | .ok ls => labelRows Granularity.Day p.1 p.2 ls
          | .error _ => []) :=
  labels_abort_on_first_error oracleCE Granularity.Day ["web", "facebook"]
    0 86400 (DoErr.upstream 500 "boom") (by rw [labelsGo_CE])

/-- C6: with every sub-query succeeding, the `/labels` aggregation issues
exactly the nested plan — windows in loop order (ascending), sources in
declared order — and writes the decoded rows in exactly that nested
order; in particular `from = 2021-02-01`, `to = 2021-02-03`,
`sources = [web, facebook]` issues exactly the 4 sub-queries
(day1, web), (day1, facebook), (day2, web), (day2, facebook) in that
order. -/
theorem labels_order_nested :
    (∀ (results : Time → String → List ChatLabel) (g : Granularity)
        (ss : List String) (lo hi : Int),
      labelsGo (fun t s => Except.ok (results t s)) g ss lo hi =
        (plan lo hi ss,
         (plan lo hi ss).flatMap (fun p => labelRows g p.1 p.2 (results p.1 p.2)),
         none)) ∧
    (labelsGo (fun _ _ => Except.ok ([] : List ChatLabel)) Granularity.Day
        ["web", "facebook"] 63747734400 63747907200).1 =
      [(63747734400, "web"), (63747734400, "facebook"),
       (63747820800, "web"), (63747820800, "facebook")] := by
  constructor
  · intro results g ss lo hi
    rw [labelsGo_eq_runPairs _ g ss (numWindows lo hi) lo hi rfl,
      runPairs_all_ok]
  · rw [labelsGo_eq_runPairs _ Granularity.Day ["web", "facebook"]
      (numWindows 63747734400 63747907200) 63747734400 63747907200 rfl]
    simp only [plan]
    rw [windowStarts_pos (by norm_num [day] : (63747734400 : Int) < 63747907200)]
    rw [windowStarts_pos
      (by norm_num [day] : (63747734400 : Int) + day < 63747907200)]
    rw [windowStarts_neg
      (by norm_num [day] : ¬ ((63747734400 : Int) + day + day < 63747907200))]
    norm_num [day]
    decide

end Kindly
